import Mathlib

/-!
# Verification of the cfn-list template-driven resource search engine

Shallow embedding of the Go sources of `jordiprats/cfn-list`:

* `cmd/search.go` — the `search` command: property-filter parsing
  (`runSearch`), template fetch/parse and resource matching
  (`searchStackTemplate`), property matching (`checkProperties`) and the
  nested dot-path resolver (`getNestedProperty`).
* the standalone lister (`src/unnamed/part_001`, `package main`) —
  `filterStacks` and the status predicates `isActiveStatus`,
  `isCompleteStatus`, `isDeletedStatus`, `isInProgressStatus`.
* the `list` command (`src/unnamed/part_001`, `package cmd`) — `runList`,
  `runResourceSearch` and its own `searchStackTemplate` variant taking an
  additional resource-name filter.

Go's dynamically-typed parsed documents (`map[string]interface{}` from
`encoding/json` / `yaml.v3`) are modelled by the inductive `Value`; the Go
`nil` interface (JSON/YAML null, and `getNestedProperty`'s failure result)
is `Value.null`.  Go maps are modelled as association lists; Go map
iteration order is unspecified, so theorems never depend on the order of
entries beyond what the claims themselves state.  The external JSON and
YAML decoders and the AWS `GetTemplate` call are modelled as function
parameters (an oracle for each), since their internals are not part of
this repository.
-/

set_option autoImplicit false

namespace CfnList

/-- A parsed template value: the shallow embedding of Go's `interface{}`
holding data decoded by `encoding/json` or `gopkg.in/yaml.v3`.
`null` plays the role of the Go `nil` interface. Numbers are abstracted
as integers (their exact formatting is irrelevant to every claim). -/
inductive Value where
  | null : Value
  | bool (b : Bool) : Value
  | str (s : String) : Value
  | num (n : Int) : Value
  | arr (elems : List Value) : Value
  | map (entries : List (String × Value)) : Value

/-- Test for the Go `nil` interface (`value == nil` in `checkProperties`). -/
def Value.isNull : Value → Bool
  | .null => true
  | _ => false

/-- Key lookup in a Go `map[string]interface{}`, modelled on the
association list (`val, exists := currentMap[part]`). -/
def Value.lookupKey (entries : List (String × Value)) (key : String) : Option Value :=
  match entries with
  | [] => none
  | (k, v) :: rest => if k = key then some v else Value.lookupKey rest key

/-! ## Byte-level string helpers (Go `strings` package)

Go's `strings.HasPrefix`, `HasSuffix`, `Contains` work on the byte slices
of the strings; we model them on the character lists of Lean strings
(every constant involved is ASCII, where the two coincide). -/

/-- `charsStartWith s p`: `s` starts with `p` (Go `strings.HasPrefix` on
the underlying lists). -/
def charsStartWith : List Char → List Char → Bool
  | _, [] => true
  | [], _ :: _ => false
  | a :: s, b :: p => a == b && charsStartWith s p

/-- Go `strings.HasPrefix`. -/
def strStartsWith (s p : String) : Bool :=
  charsStartWith s.data p.data

/-- Go `strings.HasSuffix`. -/
def strEndsWith (s p : String) : Bool :=
  charsStartWith s.data.reverse p.data.reverse

/-- `charsContain s sub`: `sub` occurs inside `s` (Go `strings.Contains`
on the underlying lists). -/
def charsContain : List Char → List Char → Bool
  | [], sub => charsStartWith [] sub
  | c :: t, sub => charsStartWith (c :: t) sub || charsContain t sub

/-- Go `strings.Contains`. -/
def strContains (s sub : String) : Bool :=
  charsContain s.data sub.data

/-- Go `strings.ToLower`. -/
def strToLower (s : String) : String :=
  String.mk (s.data.map Char.toLower)

/-- Go `strings.Split(path, ".")` on the character list: splits at every
`'.'`; the empty list yields one empty segment, like Go. -/
def splitDot : List Char → List (List Char)
  | [] => [[]]
  | c :: rest =>
    let r := splitDot rest
    if c = '.' then [] :: r
    else
      match r with
      | [] => [[c]]
      | h :: t => (c :: h) :: t

/-- Splitting a dotted path string into its segments
(Go `strings.Split(path, ".")`). -/
def splitPath (path : String) : List String :=
  (splitDot path.data).map String.mk

/-! ## The nested property resolver (`getNestedProperty`, cmd/search.go
lines 228–247; the copy in the list command is textually identical). -/

/-- The loop body of `getNestedProperty`: walk the segments left to right;
at each step the current value must be a mapping containing the segment,
else return the Go `nil` interface (`Value.null`) immediately. -/
def getNested : Value → List String → Value
  | current, [] => current
  | .map entries, part :: rest =>
    match Value.lookupKey entries part with
    | some v => getNested v rest
    | none => .null
  | _, _ :: _ => .null

/-- Go `getNestedProperty(properties, path)`: split the dotted path and
walk the segments starting from the properties mapping. -/
def getNestedProperty (properties : List (String × Value)) (path : String) : Value :=
  getNested (.map properties) (splitPath path)

/-! ## Display-string conversion (`fmt.Sprintf("%v", value)`)

`checkProperties` compares the resolved value against the expected string
via `fmt.Sprintf("%v", value)`.  For scalars this follows Go exactly
(`nil` → `"<nil>"`, booleans → `"true"`/`"false"`, strings unchanged);
for numbers and compound values the exact Go formatting (`%g` floats,
key-sorted map rendering) is abstracted — no claim depends on it. -/

/-- Join with single spaces, as Go's container formatting does. -/
def joinSpace : List String → String
  | [] => ""
  | [s] => s
  | s :: rest => s ++ " " ++ joinSpace rest

mutual

/-- `fmt.Sprintf("%v", value)` for a parsed template value. -/
def displayString : Value → String
  | .null => "<nil>"
  | .bool b => if b then "true" else "false"
  | .str s => s
  | .num n => toString n
  | .arr elems => "[" ++ joinSpace (displayList elems) ++ "]"
  | .map entries => "map[" ++ joinSpace (displayEntries entries) ++ "]"

/-- Display each element of a sequence. -/
def displayList : List Value → List String
  | [] => []
  | v :: vs => displayString v :: displayList vs

/-- Display each `key:value` entry of a mapping. -/
def displayEntries : List (String × Value) → List String
  | [] => []
  | (k, v) :: rest => (k ++ ":" ++ displayString v) :: displayEntries rest

end

/-! ## Property matching (`checkProperties`, cmd/search.go lines 206–226;
the copy in the list command is textually identical).

The Go filters map `map[string]string` is modelled as an association list
of `(dotted path, expected)` pairs; its iteration order is unspecified in
Go, and the match verdict is independent of it. -/

/-- Go `checkProperties(properties, filters)`: for each filter resolve the
dotted path; a `nil` result or a display-string mismatch fails the whole
resource (the Go code `return false, nil` — the accumulated map is
discarded).  On success return the matched `(path, value)` entries. -/
def checkProperties (properties : List (String × Value)) :
    List (String × String) → Bool × List (String × Value)
  | [] => (true, [])
  | (key, expectedValue) :: rest =>
    let value := getNestedProperty properties key
    if value.isNull then (false, [])
    else if displayString value ≠ expectedValue then (false, [])
    else
      match checkProperties properties rest with
      | (true, matchedProps) => (true, (key, value) :: matchedProps)
      | (false, _) => (false, [])

/-- A matched resource: logical ID, resolved type and the matched
`(path, value)` entries (`resourceMatch` in the Go sources). -/
structure ResourceMatch where
  logicalID : String
  resourceType : String
  matchedProperties : List (String × Value)

/-! ## The per-resource matchers

`cmd/search.go`'s `searchStackTemplate` loop body (lines 166–201) and the
list command's variant (`src/unnamed/part_001` lines 444–488, with an
extra resource-name filter).  Each is modelled as an `Option`-valued
function on one `(logicalID, resourceData)` entry; `none` is the loop's
`continue`. -/

/-- One iteration of the `search` command's resource loop: the node must
be a mapping with a string `Type` equal to the requested type; with
non-empty property filters, `Properties` must be a mapping passing
`checkProperties`. -/
def matchResourceCmd (logicalID : String) (resourceData : Value)
    (resourceType : String) (propertyFilters : List (String × String)) :
    Option ResourceMatch :=
  match resourceData with
  | .map resourceMap =>
    match Value.lookupKey resourceMap "Type" with
    | some (.str resType) =>
      if resType ≠ resourceType then none
      else if propertyFilters ≠ [] then
        match Value.lookupKey resourceMap "Properties" with
        | some (.map properties) =>
          match checkProperties properties propertyFilters with
          | (true, matchedProps) =>
            some ⟨logicalID, resType, matchedProps⟩
          | (false, _) => none
        | _ => none
      else some ⟨logicalID, resType, []⟩
    | _ => none
  | _ => none

/-- One iteration of the `list` command's resource loop: same as
`matchResourceCmd` but the type filter only applies when non-empty, and a
non-empty resource-name filter requires the logical ID to contain it. -/
def matchResourceList (logicalID : String) (resourceData : Value)
    (resType resName : String) (propertyFilters : List (String × String)) :
    Option ResourceMatch :=
  match resourceData with
  | .map resourceMap =>
    match Value.lookupKey resourceMap "Type" with
    | some (.str currentType) =>
      if resType ≠ "" ∧ currentType ≠ resType then none
      else if resName ≠ "" ∧ ¬ strContains logicalID resName then none
      else if propertyFilters ≠ [] then
        match Value.lookupKey resourceMap "Properties" with
        | some (.map properties) =>
          match checkProperties properties propertyFilters with
          | (true, matchedProps) =>
            some ⟨logicalID, currentType, matchedProps⟩
          | (false, _) => none
        | _ => none
      else some ⟨logicalID, currentType, []⟩
    | _ => none
  | _ => none

/-- The `search` command's whole resource loop over the `Resources`
mapping. -/
def searchResourcesCmd (resources : List (String × Value))
    (resourceType : String) (propertyFilters : List (String × String)) :
    List ResourceMatch :=
  resources.filterMap fun e => matchResourceCmd e.1 e.2 resourceType propertyFilters

/-- The `list` command's whole resource loop over the `Resources`
mapping. -/
def searchResourcesList (resources : List (String × Value))
    (resType resName : String) (propertyFilters : List (String × String)) :
    List ResourceMatch :=
  resources.filterMap fun e => matchResourceList e.1 e.2 resType resName propertyFilters

/-! ## The format-agnostic template parser and per-stack search

`searchStackTemplate` (cmd/search.go lines 135–204): fetch the template
body, reject an empty body, try JSON then YAML, extract `Resources`, run
the resource loop.  The external decoders (`json.Unmarshal`,
`yaml.Unmarshal`, both into `map[string]interface{}`) and the AWS
`GetTemplate` call are oracles: a decoder returns `none` exactly when Go's
`Unmarshal` returns an error, and `getTemplate` returns `none` exactly
when the AWS call errors (the body already passed through `getValue`, so
a `nil` `TemplateBody` pointer arrives as `""`). -/

/-- A decoder oracle: `json.Unmarshal` / `yaml.Unmarshal` into
`map[string]interface{}`. -/
abbrev Decoder := String → Option (List (String × Value))

/-- Why a template body failed to become a document. -/
inductive ParseFailure where
  | emptyTemplate : ParseFailure
  | unparsableTemplate : ParseFailure
deriving DecidableEq

/-- cmd/search.go lines 145–157: reject the empty body
(`empty template`), try JSON, fall back to YAML, and fail
(`failed to parse template`) only when both decoders fail. -/
def parseTemplate (jsonDecode yamlDecode : Decoder) (raw : String) :
    Except ParseFailure (List (String × Value)) :=
  if raw = "" then .error .emptyTemplate
  else
    match jsonDecode raw with
    | some template => .ok template
    | none =>
      match yamlDecode raw with
      | some template => .ok template
      | none => .error .unparsableTemplate

/-- A per-stack failure: the AWS fetch errored, or the body could not be
parsed. -/
inductive StackSearchError where
  | fetchFailed : StackSearchError
  | badTemplate (e : ParseFailure) : StackSearchError
deriving DecidableEq

/-- The `search` command's `searchStackTemplate`: fetch, parse, extract
`Resources` (absent or non-mapping gives a successful empty result,
Go's `return nil, nil`), then run the resource loop. -/
def searchStackTemplateCmd (getTemplate : String → Option String)
    (jsonDecode yamlDecode : Decoder) (stackName resourceType : String)
    (propertyFilters : List (String × String)) :
    Except StackSearchError (List ResourceMatch) :=
  match getTemplate stackName with
  | none => .error .fetchFailed
  | some body =>
    match parseTemplate jsonDecode yamlDecode body with
    | .error e => .error (.badTemplate e)
    | .ok template =>
      match Value.lookupKey template "Resources" with
      | some (.map resources) =>
        .ok (searchResourcesCmd resources resourceType propertyFilters)
      | _ => .ok []

/-- The `list` command's `searchStackTemplate` (part_001 lines 413–491):
identical pipeline, with the extra resource-name filter. -/
def searchStackTemplateList (getTemplate : String → Option String)
    (jsonDecode yamlDecode : Decoder) (stackName resType resName : String)
    (propertyFilters : List (String × String)) :
    Except StackSearchError (List ResourceMatch) :=
  match getTemplate stackName with
  | none => .error .fetchFailed
  | some body =>
    match parseTemplate jsonDecode yamlDecode body with
    | .error e => .error (.badTemplate e)
    | .ok template =>
      match Value.lookupKey template "Resources" with
      | some (.map resources) =>
        .ok (searchResourcesList resources resType resName propertyFilters)
      | _ => .ok []

/-- A stack with at least one matching resource (`stackMatch` in Go). -/
structure StackMatch where
  stackName : String
  resources : List ResourceMatch

/-! ## The multi-stack orchestrator

The loop of `runSearch` (cmd/search.go lines 79–97): a `nil` `StackName`
pointer skips the stack (modelled as `Option String`), a per-stack error
skips the stack, and only stacks with a non-empty match list are
recorded, in input order. -/

/-- The `runSearch` accumulation loop over the listed stacks. -/
def runSearchLoop (getTemplate : String → Option String)
    (jsonDecode yamlDecode : Decoder) (resourceType : String)
    (propertyFilters : List (String × String))
    (stackList : List (Option String)) : List StackMatch :=
  stackList.filterMap fun stackName? =>
    match stackName? with
    | none => none
    | some name =>
      match searchStackTemplateCmd getTemplate jsonDecode yamlDecode
          name resourceType propertyFilters with
      | .error _ => none
      | .ok found =>
        if found.isEmpty then none else some ⟨name, found⟩

/-- The identical accumulation loop of `runResourceSearch` (part_001
lines 333–351), over the list command's template searcher. -/
def runListLoop (getTemplate : String → Option String)
    (jsonDecode yamlDecode : Decoder) (resType resName : String)
    (propertyFilters : List (String × String))
    (stackList : List (Option String)) : List StackMatch :=
  stackList.filterMap fun stackName? =>
    match stackName? with
    | none => none
    | some name =>
      match searchStackTemplateList getTemplate jsonDecode yamlDecode
          name resType resName propertyFilters with
      | .error _ => none
      | .ok found =>
        if found.isEmpty then none else some ⟨name, found⟩

/-! ## CLI control flow

`runSearch` (cmd/search.go lines 51–77) parses the `--property` tokens
BEFORE listing stacks; `runList` (part_001 lines 262–302) lists stacks
first and only then, inside `runResourceSearch` (lines 304–318), parses
the `--property` tokens.  The stack lister is an oracle
(`none` = `ListStacks` failed); fatal exits are modelled as `Except`
errors carrying the printed message. -/

/-- Go `strings.SplitN(prop, "=", 2)`: `none` when `prop` has no `'='`
(Go returns a one-element slice), otherwise the parts before and after
the first `'='`. -/
def splitEq : List Char → Option (List Char × List Char)
  | [] => none
  | c :: rest =>
    if c = '=' then some ([], rest)
    else (splitEq rest).map fun p => (c :: p.1, p.2)

/-- The fatal message for a `--property` token without `'='`
(`invalid property format %q, expected key=value`). -/
def invalidPropertyMsg (prop : String) : String :=
  "invalid property format \"" ++ prop ++ "\", expected key=value"

/-- The property-filter parsing loop shared by `runSearch` and
`runResourceSearch`: the first token without `'='` is fatal. -/
def parsePropertyFilters : List String → Except String (List (String × String))
  | [] => .ok []
  | prop :: rest =>
    match splitEq prop.data with
    | none => .error (invalidPropertyMsg prop)
    | some (k, v) =>
      match parsePropertyFilters rest with
      | .error e => .error e
      | .ok filters => .ok ((String.mk k, String.mk v) :: filters)

/-- `runSearch` (cmd/search.go lines 51–97): parse the property tokens,
then consult the stack lister, then run the search loop.  `listStacksResult`
is `none` when `ListStacks` fails. -/
def runSearchGo (searchProperties : List String)
    (listStacksResult : Option (List (Option String)))
    (getTemplate : String → Option String)
    (jsonDecode yamlDecode : Decoder) (resourceType : String) :
    Except String (List StackMatch) :=
  match parsePropertyFilters searchProperties with
  | .error e => .error e
  | .ok propertyFilters =>
    match listStacksResult with
    | none => .error "failed to list stacks"
    | some stackList =>
      if stackList.isEmpty then .error "No stacks to search"
      else .ok (runSearchLoop getTemplate jsonDecode yamlDecode
        resourceType propertyFilters stackList)

/-- The resource-search path of `runList` (part_001 lines 262–351): the
stack lister is consulted FIRST; `runResourceSearch` then parses the
property tokens and runs the loop.  (This branch is taken whenever a
resource filter is present — in particular whenever `properties ≠ []`.) -/
def runListGo (properties : List String) (resType resName : String)
    (listStacksResult : Option (List (Option String)))
    (getTemplate : String → Option String)
    (jsonDecode yamlDecode : Decoder) :
    Except String (List StackMatch) :=
  match listStacksResult with
  | none => .error "failed to list stacks"
  | some stackList =>
    match parsePropertyFilters properties with
    | .error e => .error e
    | .ok propertyFilters =>
      if stackList.isEmpty then .error "No stacks to search"
      else .ok (runListLoop getTemplate jsonDecode yamlDecode
        resType resName propertyFilters stackList)

/-! ## Status/name filter policy (part_001, `package main`, lines 106–188) -/

/-- The fields of a listed stack that the filter consults. -/
structure StackSummary where
  name : String
  status : String
deriving DecidableEq

/-- `isActiveStatus` (part_001 lines 152–169): membership in the
enumerated stable-state list. -/
def isActiveStatus (status : String) : Bool :=
  let completeStates := ["CREATE_COMPLETE", "UPDATE_COMPLETE",
    "ROLLBACK_COMPLETE", "UPDATE_ROLLBACK_COMPLETE",
    "IMPORT_COMPLETE", "IMPORT_ROLLBACK_COMPLETE"]
  completeStates.any fun state => status == state

/-- `isCompleteStatus`: `strings.HasSuffix(status, "_COMPLETE")`. -/
def isCompleteStatus (status : String) : Bool :=
  strEndsWith status "_COMPLETE"

/-- `isDeletedStatus`: `strings.HasPrefix(status, "DELETE_")`. -/
def isDeletedStatus (status : String) : Bool :=
  strStartsWith status "DELETE_"

/-- `isInProgressStatus`: `strings.HasSuffix(status, "_IN_PROGRESS")`. -/
def isInProgressStatus (status : String) : Bool :=
  strEndsWith status "_IN_PROGRESS"

/-- The per-stack decision of `filterStacks` (part_001 lines 106–150):
name filter first (case-insensitive substring), then either the
no-status-flag default (keep unless the status starts with
`DELETE_COMPLETE`) or the OR of the requested category predicates. -/
def keepStack (active complete deleted inProgress : Bool)
    (nameFilter : String) (stack : StackSummary) : Bool :=
  if (nameFilter != "")
      && !(strContains (strToLower stack.name) (strToLower nameFilter)) then
    false
  else if !active && !complete && !deleted && !inProgress then
    !(strStartsWith stack.status "DELETE_COMPLETE")
  else
    (active && isActiveStatus stack.status)
      || (complete && isCompleteStatus stack.status)
      || (deleted && isDeletedStatus stack.status)
      || (inProgress && isInProgressStatus stack.status)

/-- `filterStacks`: keep, in order, the stacks passing `keepStack`. -/
def filterStacks (stackList : List StackSummary)
    (active complete deleted inProgress : Bool) (nameFilter : String) :
    List StackSummary :=
  stackList.filter (keepStack active complete deleted inProgress nameFilter)

/-! ## Helper lemmas: the string helpers against `List.IsPrefix` /
`IsSuffix` / `IsInfix` -/

theorem charsStartWith_iff : ∀ s p : List Char, charsStartWith s p = true ↔ p <+: s
  | _, [] => by simp [charsStartWith]
  | [], _ :: _ => by simp [charsStartWith]
  | a :: s, b :: p => by
    simp only [charsStartWith, Bool.and_eq_true, beq_iff_eq,
      List.cons_prefix_cons, charsStartWith_iff s p]
    exact and_congr_left fun _ => eq_comm

theorem strStartsWith_iff (s p : String) :
    strStartsWith s p = true ↔ p.data <+: s.data := by
  rw [strStartsWith, charsStartWith_iff]

theorem strEndsWith_iff (s p : String) :
    strEndsWith s p = true ↔ p.data <:+ s.data := by
  rw [strEndsWith, charsStartWith_iff]
  exact List.reverse_prefix

theorem charsContain_iff : ∀ s sub : List Char, charsContain s sub = true ↔ sub <:+: s
  | [], sub => by
    rw [charsContain, charsStartWith_iff]
    simp
  | c :: t, sub => by
    rw [charsContain, Bool.or_eq_true, charsStartWith_iff,
      charsContain_iff t sub, List.infix_cons_iff]

theorem strContains_iff (s sub : String) :
    strContains s sub = true ↔ sub.data <:+: s.data :=
  charsContain_iff s.data sub.data

theorem strStartsWith_eq_false_iff (s p : String) :
    strStartsWith s p = false ↔ ¬ p.data <+: s.data := by
  rw [← strStartsWith_iff]
  cases strStartsWith s p <;> simp

/-- C7, part 4 helper: unfolding the `isActiveStatus` loop into the
disjunction of the six stable states. -/
theorem isActiveStatus_iff (s : String) :
    isActiveStatus s = true ↔
      s = "CREATE_COMPLETE" ∨ s = "UPDATE_COMPLETE" ∨ s = "ROLLBACK_COMPLETE"
        ∨ s = "UPDATE_ROLLBACK_COMPLETE" ∨ s = "IMPORT_COMPLETE"
        ∨ s = "IMPORT_ROLLBACK_COMPLETE" := by
  simp [isActiveStatus]

/-- C7: `isCompleteStatus` holds exactly on statuses ending in
`_COMPLETE`, `isDeletedStatus` exactly on statuses starting with
`DELETE_`, `isInProgressStatus` exactly on statuses ending in
`_IN_PROGRESS`, `isActiveStatus` exactly on the six enumerated stable
states; and the categories overlap: `DELETE_COMPLETE` satisfies both
`isCompleteStatus` and `isDeletedStatus`. -/
theorem status_predicate_characterization :
    (∀ s : String, isCompleteStatus s = true ↔ "_COMPLETE".data <:+ s.data)
    ∧ (∀ s : String, isDeletedStatus s = true ↔ "DELETE_".data <+: s.data)
    ∧ (∀ s : String, isInProgressStatus s = true ↔ "_IN_PROGRESS".data <:+ s.data)
    ∧ (∀ s : String, isActiveStatus s = true ↔
        s = "CREATE_COMPLETE" ∨ s = "UPDATE_COMPLETE" ∨ s = "ROLLBACK_COMPLETE"
          ∨ s = "UPDATE_ROLLBACK_COMPLETE" ∨ s = "IMPORT_COMPLETE"
          ∨ s = "IMPORT_ROLLBACK_COMPLETE")
    ∧ (isCompleteStatus "DELETE_COMPLETE" = true
        ∧ isDeletedStatus "DELETE_COMPLETE" = true) :=
  ⟨fun s => strEndsWith_iff s "_COMPLETE",
   fun s => strStartsWith_iff s "DELETE_",
   fun s => strEndsWith_iff s "_IN_PROGRESS",
   isActiveStatus_iff,
   by decide, by decide⟩

/-- C6 counterexample: with no status flag set, a stack whose status is
`DELETE_COMPLETE_X` — different from `DELETE_COMPLETE` — is nevertheless
excluded, because the code tests `strings.HasPrefix(status,
"DELETE_COMPLETE")`, not equality. -/
theorem filterStacks_default_excludes_by_prefix_only :
    filterStacks [⟨"x", "DELETE_COMPLETE_X"⟩] false false false false "" = []
    ∧ ("DELETE_COMPLETE_X" : String) ≠ "DELETE_COMPLETE" :=
  ⟨rfl, by decide⟩

/-- C6 (amended): a stack passes `filterStacks` exactly when (its lowered
name contains the lowered name filter, or no name filter is given) AND
either no status flag is set and the status does not START WITH
`DELETE_COMPLETE` (not: is distinct from `DELETE_COMPLETE`), or at least
one requested category predicate holds (logical OR across the set
flags). -/
theorem filterStacks_characterization
    (stackList : List StackSummary) (active complete deleted inProgress : Bool)
    (nameFilter : String) (s : StackSummary) :
    s ∈ filterStacks stackList active complete deleted inProgress nameFilter ↔
      s ∈ stackList
      ∧ (nameFilter = ""
          ∨ (strToLower nameFilter).data <:+: (strToLower s.name).data)
      ∧ ((active = false ∧ complete = false ∧ deleted = false ∧ inProgress = false
            ∧ ¬ "DELETE_COMPLETE".data <+: s.status.data)
         ∨ (active = true ∧ isActiveStatus s.status = true)
         ∨ (complete = true ∧ isCompleteStatus s.status = true)
         ∨ (deleted = true ∧ isDeletedStatus s.status = true)
         ∨ (inProgress = true ∧ isInProgressStatus s.status = true)) := by
  rw [filterStacks, List.mem_filter]
  refine and_congr_right fun _ => ?_
  by_cases hnf : nameFilter = "" <;>
    cases active <;> cases complete <;> cases deleted <;> cases inProgress <;>
    simp [keepStack, hnf, strContains_iff, strStartsWith_eq_false_iff,
      ← strStartsWith_iff, Bool.not_eq_true', or_assoc]

/-! ## Malformed resource entries and type-filter exactness (C5) -/

/-- Splitting `filterMap` around one dropped entry. -/
theorem searchResourcesList_append_of_none
    (tf rn : String) (fl : List (String × String))
    (pre post : List (String × Value)) (lid : String) (rd : Value)
    (h : matchResourceList lid rd tf rn fl = none) :
    searchResourcesList (pre ++ (lid, rd) :: post) tf rn fl
      = searchResourcesList pre tf rn fl ++ searchResourcesList post tf rn fl := by
  simp [searchResourcesList, List.filterMap_append, h]

/-- C5: in the list command's matcher, a resource entry whose node is not
a mapping, or whose node lacks a string-valued `Type`, is skipped (never
an error — the matcher is a total function); with a non-empty type
filter, a resource whose `Type` differs from the filter in any way is
skipped (exact equality, no prefix matching); and a skipped entry
disappears from the overall result without affecting its neighbours. -/
theorem resource_entry_skipping
    (lid tf rn : String) (fl : List (String × String)) :
    (∀ rd : Value, (∀ m, rd ≠ Value.map m) →
        matchResourceList lid rd tf rn fl = none)
    ∧ (∀ rm : List (String × Value),
        (∀ s, Value.lookupKey rm "Type" ≠ some (.str s)) →
        matchResourceList lid (.map rm) tf rn fl = none)
    ∧ (∀ (rm : List (String × Value)) (t : String),
        Value.lookupKey rm "Type" = some (.str t) → tf ≠ "" → t ≠ tf →
        matchResourceList lid (.map rm) tf rn fl = none)
    ∧ (∀ (pre post : List (String × Value)) (rd : Value),
        matchResourceList lid rd tf rn fl = none →
        searchResourcesList (pre ++ (lid, rd) :: post) tf rn fl
          = searchResourcesList pre tf rn fl ++ searchResourcesList post tf rn fl) := by
  refine ⟨?_, ?_, ?_, ?_⟩
  · intro rd h
    cases rd with
    | map m => exact absurd rfl (h m)
    | null => rfl
    | bool b => rfl
    | str s => rfl
    | num n => rfl
    | arr es => rfl
  · intro rm h
    rw [matchResourceList]
    rcases hl : Value.lookupKey rm "Type" with _ | v
    · rfl
    · cases v with
      | str s => exact absurd hl (h s)
      | null => rfl
      | bool b => rfl
      | num n => rfl
      | arr es => rfl
      | map m => rfl
  · intro rm t hl htf hne
    rw [matchResourceList, hl]
    simp [htf, hne]
  · exact fun pre post rd => searchResourcesList_append_of_none tf rn fl pre post lid rd

/-- C5 witness: a scalar `Resources` entry, an entry without a string
`Type`, and an `AWS::S3::Bucket` resource against an
`AWS::S3::BucketPolicy` filter are all skipped, and removing the scalar
entry splits cleanly around its neighbours. -/
theorem resource_entry_skipping_witness :
    matchResourceList "B" (.str "oops") "AWS::S3::BucketPolicy" "" [] = none
    ∧ matchResourceList "B" (.map [("Properties", .map [])])
        "AWS::S3::BucketPolicy" "" [] = none
    ∧ matchResourceList "B" (.map [("Type", .str "AWS::S3::Bucket")])
        "AWS::S3::BucketPolicy" "" [] = none
    ∧ searchResourcesList
        [("A", .map [("Type", .str "AWS::S3::BucketPolicy")]),
         ("B", .str "oops"),
         ("C", .map [("Type", .str "AWS::S3::BucketPolicy")])]
        "AWS::S3::BucketPolicy" "" []
      = searchResourcesList [("A", .map [("Type", .str "AWS::S3::BucketPolicy")])]
          "AWS::S3::BucketPolicy" "" []
        ++ searchResourcesList [("C", .map [("Type", .str "AWS::S3::BucketPolicy")])]
          "AWS::S3::BucketPolicy" "" [] := by
  refine ⟨?_, ?_, ?_, ?_⟩
  · exact (resource_entry_skipping "B" "AWS::S3::BucketPolicy" "" []).1
      (.str "oops") (fun m h => Value.noConfusion h)
  · exact (resource_entry_skipping "B" "AWS::S3::BucketPolicy" "" []).2.1
      [("Properties", .map [])] (by intro s h; simp [Value.lookupKey] at h)
  · exact (resource_entry_skipping "B" "AWS::S3::BucketPolicy" "" []).2.2.1
      [("Type", .str "AWS::S3::Bucket")] "AWS::S3::Bucket" rfl
      (by decide) (by decide)
  · exact (resource_entry_skipping "B" "AWS::S3::BucketPolicy" "" []).2.2.2
      [("A", .map [("Type", .str "AWS::S3::BucketPolicy")])]
      [("C", .map [("Type", .str "AWS::S3::BucketPolicy")])]
      (.str "oops") rfl

/-! ## The nested resolver against its access path (C4, C10) -/

/-- `Resolves root segs w`: walking `segs` from `root`, every intermediate
value is a mapping containing the next segment, and the walk ends at `w`. -/
inductive Resolves : Value → List String → Value → Prop where
  | done (v : Value) : Resolves v [] v
  | step {entries : List (String × Value)} {part : String}
      {rest : List String} {v w : Value} :
      Value.lookupKey entries part = some v → Resolves v rest w →
      Resolves (.map entries) (part :: rest) w

/-- Successful walks compute through `getNested`. -/
theorem getNested_of_resolves {root : Value} {segs : List String} {w : Value}
    (h : Resolves root segs w) : getNested root segs = w := by
  induction h with
  | done v => simp [getNested]
  | step hl _ ih => rw [getNested]; rw [hl]; exact ih

/-- Failed walks return the `nil` signal. -/
theorem getNested_of_not_resolves :
    ∀ (root : Value) (segs : List String),
      (¬ ∃ w, Resolves root segs w) → getNested root segs = .null := by
  intro root segs
  induction segs generalizing root with
  | nil => intro h; exact absurd ⟨root, .done root⟩ h
  | cons part rest ih =>
    intro h
    cases root with
    | map entries =>
      rw [getNested]
      rcases hl : Value.lookupKey entries part with _ | v
      · rfl
      · exact ih v fun ⟨w, hw⟩ => h ⟨w, .step hl hw⟩
    | null => rfl
    | bool b => rfl
    | str s => rfl
    | num n => rfl
    | arr es => rfl

/-- Walks are deterministic. -/
theorem resolves_unique {root : Value} {segs : List String} {w w' : Value}
    (h : Resolves root segs w) (h' : Resolves root segs w') : w = w' := by
  induction h with
  | done v => cases h'; rfl
  | step hl _ ih =>
    cases h' with
    | step hl' hrest =>
      rw [hl] at hl'
      cases hl'
      exact ih hrest

/-- C4: `getNestedProperty` returns the leaf value of the unique
all-mappings walk along the dot-path when it exists, returns the `nil`
signal when no such walk exists (it cannot descend into a scalar or a
sequence and never returns a partial-path result), is deterministic, and
on the spec's two examples gives `"Enabled"` and `NotFound`. -/
theorem getNestedProperty_characterization :
    (∀ (root : Value) (segs : List String) (w : Value),
        Resolves root segs w → getNested root segs = w)
    ∧ (∀ (root : Value) (segs : List String),
        (¬ ∃ w, Resolves root segs w) → getNested root segs = .null)
    ∧ (∀ (root : Value) (segs : List String) (w w' : Value),
        Resolves root segs w → Resolves root segs w' → w = w')
    ∧ getNestedProperty [("Versioning", .map [("Status", .str "Enabled")])]
        "Versioning.Status" = .str "Enabled"
    ∧ getNestedProperty [("A", .num 1)] "A.B" = .null :=
  ⟨fun _ _ _ h => getNested_of_resolves h,
   getNested_of_not_resolves,
   fun _ _ _ _ h h' => resolves_unique h h',
   rfl, rfl⟩

/-- C4 witness: the theorem applied to the concrete walk
`{"Versioning": {"Status": "Enabled"}} / Versioning.Status`. -/
theorem getNestedProperty_characterization_witness :
    getNested (.map [("Versioning", .map [("Status", .str "Enabled")])])
      ["Versioning", "Status"] = .str "Enabled" :=
  getNestedProperty_characterization.1 _ _ _
    (.step rfl (.step rfl (.done _)))

/-- The single verdict of the `checkProperties` loop: all filters pass
— every resolved value is non-nil with the expected display string — and
then the matched map has exactly one entry per filter; or the resource
fails and the map is discarded. -/
theorem checkProperties_eq (properties : List (String × Value)) :
    ∀ filters : List (String × String),
    checkProperties properties filters =
      if filters.all (fun p => !(getNestedProperty properties p.1).isNull
          && (displayString (getNestedProperty properties p.1) == p.2)) then
        (true, filters.map fun p => (p.1, getNestedProperty properties p.1))
      else (false, [])
  | [] => rfl
  | (k, e) :: rest => by
    rw [checkProperties, checkProperties_eq properties rest]
    by_cases h1 : (getNestedProperty properties k).isNull = true
    · simp [h1]
    · by_cases h2 : displayString (getNestedProperty properties k) = e
      · by_cases h3 : rest.all (fun p => !(getNestedProperty properties p.1).isNull
            && (displayString (getNestedProperty properties p.1) == p.2)) = true
        · simp [h1, h2, h3]
        · simp [h1, h2, h3]
      · simp [h1, h2]

/-- A resolved `null` leaf fails the whole filter set, like a missing
path. -/
theorem checkProperties_false_of_null :
    ∀ (properties : List (String × Value)) (filters : List (String × String))
      (k e : String), (k, e) ∈ filters →
      getNestedProperty properties k = .null →
      (checkProperties properties filters).1 = false := by
  intro properties filters k e hmem hnull
  have hno : ¬ (filters.all (fun p => !(getNestedProperty properties p.1).isNull
      && (displayString (getNestedProperty properties p.1) == p.2)) = true) := by
    intro hall
    have := List.all_eq_true.mp hall (k, e) hmem
    rw [hnull] at this
    simp [Value.isNull] at this
  rw [checkProperties_eq, if_neg hno]

/-- C10: a `null` leaf is indistinguishable from a missing path at the
resolver's interface — both produce the `nil` signal — and consequently
no property filter is ever satisfied by a property whose stored value is
null: the resource fails `checkProperties` exactly as if the key were
missing. -/
theorem null_leaf_indistinguishable_from_missing :
    (∀ (properties : List (String × Value)) (segs : List String),
        (Resolves (.map properties) segs .null
          ∨ ¬ ∃ w, Resolves (.map properties) segs w) →
        getNested (.map properties) segs = .null)
    ∧ (∀ (properties : List (String × Value)) (filters : List (String × String))
        (k e : String), (k, e) ∈ filters →
        getNestedProperty properties k = .null →
        (checkProperties properties filters).1 = false) := by
  refine ⟨?_, checkProperties_false_of_null⟩
  intro properties segs h
  rcases h with h | h
  · exact getNested_of_resolves h
  · exact getNested_of_not_resolves _ _ h

/-- C10 witness: over `{"K": null}`, the paths `K` (null leaf) and `M`
(missing key) both resolve to the `nil` signal, and the filter `K=<nil>`
fails even though the display string of null is `<nil>`. -/
theorem null_leaf_indistinguishable_from_missing_witness :
    getNested (.map [("K", Value.null)]) ["K"] = .null
    ∧ getNested (.map [("K", Value.null)]) ["M"] = .null
    ∧ (checkProperties [("K", Value.null)] [("K", "<nil>")]).1 = false := by
  refine ⟨?_, ?_, ?_⟩
  · exact null_leaf_indistinguishable_from_missing.1 _ _
      (Or.inl (.step rfl (.done _)))
  · exact null_leaf_indistinguishable_from_missing.1 _ _
      (Or.inr (by rintro ⟨w, hw⟩; cases hw with
        | step hl _ => simp [Value.lookupKey] at hl))
  · exact null_leaf_indistinguishable_from_missing.2 _ _ "K" "<nil>"
      (List.mem_singleton.mpr rfl) rfl

/-! ## Property-filter semantics of the `search` command matcher (C1) -/

/-- C1: for a resource node that is a mapping carrying the requested
string `Type`: (1) with a mapping-shaped `Properties` and a non-empty
filter set, the resource qualifies iff EVERY filter's dot-path resolves
to a non-nil value whose display string equals the expected string — a
`nil` resolution (the resolver's NotFound signal) or any mismatch
excludes it — and the emitted match carries exactly one
`(path, resolved value)` entry per filter; (2) with an empty filter set
the resource qualifies on the type filter alone, with an empty matched
map; (3) with a non-empty filter set but `Properties` absent or not a
mapping, the resource is skipped. -/
theorem cmd_property_filter_semantics
    (lid t : String) (rm props : List (String × Value))
    (fl : List (String × String))
    (hty : Value.lookupKey rm "Type" = some (.str t)) :
    (Value.lookupKey rm "Properties" = some (.map props) → fl ≠ [] →
      matchResourceCmd lid (.map rm) t fl
        = if ∀ p ∈ fl, (getNestedProperty props p.1).isNull = false
              ∧ displayString (getNestedProperty props p.1) = p.2 then
            some ⟨lid, t, fl.map fun p => (p.1, getNestedProperty props p.1)⟩
          else none)
    ∧ matchResourceCmd lid (.map rm) t [] = some ⟨lid, t, []⟩
    ∧ ((∀ m, Value.lookupKey rm "Properties" ≠ some (.map m)) → fl ≠ [] →
      matchResourceCmd lid (.map rm) t fl = none) := by
  have hiff : (fl.all (fun p => !(getNestedProperty props p.1).isNull
      && (displayString (getNestedProperty props p.1) == p.2)) = true)
      ↔ ∀ p ∈ fl, (getNestedProperty props p.1).isNull = false
          ∧ displayString (getNestedProperty props p.1) = p.2 := by
    rw [List.all_eq_true]
    refine forall_congr' fun p => imp_congr_right fun _ => ?_
    simp [Bool.and_eq_true, Bool.not_eq_true']
  refine ⟨?_, ?_, ?_⟩
  · intro hprops hne
    simp only [matchResourceCmd, hty, hprops, checkProperties_eq props fl,
      ne_eq, not_true_eq_false, if_false, hne, not_false_eq_true, if_true]
    by_cases hcond : ∀ p ∈ fl, (getNestedProperty props p.1).isNull = false
        ∧ displayString (getNestedProperty props p.1) = p.2
    · rw [if_pos hcond, if_pos (hiff.mpr hcond)]
    · rw [if_neg hcond,
        if_neg (fun h => hcond (hiff.mp h))]
  · simp [matchResourceCmd, hty]
  · intro hnm hne
    rcases hp : Value.lookupKey rm "Properties" with _ | v
    · simp [matchResourceCmd, hty, hne, hp]
    · cases v with
      | map m => exact absurd hp (hnm m)
      | null => simp [matchResourceCmd, hty, hne, hp]
      | bool b => simp [matchResourceCmd, hty, hne, hp]
      | str s => simp [matchResourceCmd, hty, hne, hp]
      | num n => simp [matchResourceCmd, hty, hne, hp]
      | arr es => simp [matchResourceCmd, hty, hne, hp]

/-- C1 witness: a ServiceCatalog provisioned product whose properties hold
`ProductName=IAMRole` and `ProvisioningArtifactName=3.0.0` matches both
filters (with both matched values recorded), while the same node with
artifact `2.0.0` fails the pair of filters (AND semantics), and an empty
filter set accepts on type alone. -/
theorem cmd_property_filter_semantics_witness :
    matchResourceCmd "P"
        (.map [("Type", .str "SC::Product"),
               ("Properties", .map [("ProductName", .str "IAMRole"),
                 ("ProvisioningArtifactName", .str "3.0.0")])])
        "SC::Product"
        [("ProductName", "IAMRole"), ("ProvisioningArtifactName", "3.0.0")]
      = some ⟨"P", "SC::Product",
          [("ProductName", .str "IAMRole"),
           ("ProvisioningArtifactName", .str "3.0.0")]⟩
    ∧ matchResourceCmd "P"
        (.map [("Type", .str "SC::Product"),
               ("Properties", .map [("ProductName", .str "IAMRole"),
                 ("ProvisioningArtifactName", .str "2.0.0")])])
        "SC::Product"
        [("ProductName", "IAMRole"), ("ProvisioningArtifactName", "3.0.0")]
      = none
    ∧ matchResourceCmd "P" (.map [("Type", .str "SC::Product")])
        "SC::Product" [] = some ⟨"P", "SC::Product", []⟩ := by
  refine ⟨?_, ?_, ?_⟩
  · have h := (cmd_property_filter_semantics "P" "SC::Product"
      [("Type", .str "SC::Product"),
       ("Properties", .map [("ProductName", .str "IAMRole"),
         ("ProvisioningArtifactName", .str "3.0.0")])]
      [("ProductName", .str "IAMRole"),
       ("ProvisioningArtifactName", .str "3.0.0")]
      [("ProductName", "IAMRole"), ("ProvisioningArtifactName", "3.0.0")]
      rfl).1 rfl (by decide)
    rw [h, if_pos (by decide)]
    rfl
  · have h := (cmd_property_filter_semantics "P" "SC::Product"
      [("Type", .str "SC::Product"),
       ("Properties", .map [("ProductName", .str "IAMRole"),
         ("ProvisioningArtifactName", .str "2.0.0")])]
      [("ProductName", .str "IAMRole"),
       ("ProvisioningArtifactName", .str "2.0.0")]
      [("ProductName", "IAMRole"), ("ProvisioningArtifactName", "3.0.0")]
      rfl).1 rfl (by decide)
    rw [h, if_neg (by decide)]
  · exact (cmd_property_filter_semantics "P" "SC::Product"
      [("Type", .str "SC::Product")] [] [] rfl).2.1

/-! ## The format-agnostic parser (C3) -/

/-- C3: the template parser fails with `EmptyTemplate` on the empty body;
on a body the JSON decoder accepts it returns exactly the JSON document
and never consults the YAML decoder (the result is the same for every
YAML decoder); on a body only the YAML decoder accepts it returns the
YAML document; when both decoders fail it fails with
`UnparsableTemplate`; and it is all-or-nothing — any successful result
is the complete output of one of the two decoders. -/
theorem parseTemplate_spec :
    (∀ jsonDecode yamlDecode : Decoder,
        parseTemplate jsonDecode yamlDecode "" = .error .emptyTemplate)
    ∧ (∀ (jsonDecode yamlDecode yamlDecode' : Decoder) (raw : String)
          (t : List (String × Value)), raw ≠ "" → jsonDecode raw = some t →
        parseTemplate jsonDecode yamlDecode raw = .ok t
          ∧ parseTemplate jsonDecode yamlDecode raw
              = parseTemplate jsonDecode yamlDecode' raw)
    ∧ (∀ (jsonDecode yamlDecode : Decoder) (raw : String)
          (t : List (String × Value)), raw ≠ "" → jsonDecode raw = none →
        yamlDecode raw = some t →
        parseTemplate jsonDecode yamlDecode raw = .ok t)
    ∧ (∀ (jsonDecode yamlDecode : Decoder) (raw : String), raw ≠ "" →
        jsonDecode raw = none → yamlDecode raw = none →
        parseTemplate jsonDecode yamlDecode raw = .error .unparsableTemplate)
    ∧ (∀ (jsonDecode yamlDecode : Decoder) (raw : String)
          (t : List (String × Value)),
        parseTemplate jsonDecode yamlDecode raw = .ok t →
        jsonDecode raw = some t ∨ yamlDecode raw = some t) := by
  refine ⟨?_, ?_, ?_, ?_, ?_⟩
  · intro jd yd; rw [parseTemplate, if_pos rfl]
  · intro jd yd yd' raw t hraw hjd
    constructor
    · rw [parseTemplate, if_neg hraw, hjd]
    · rw [parseTemplate, if_neg hraw, hjd, parseTemplate, if_neg hraw, hjd]
  · intro jd yd raw t hraw hjd hyd
    rw [parseTemplate, if_neg hraw, hjd, hyd]
  · intro jd yd raw hraw hjd hyd
    rw [parseTemplate, if_neg hraw, hjd, hyd]
  · intro jd yd raw t h
    rw [parseTemplate] at h
    by_cases hraw : raw = ""
    · rw [if_pos hraw] at h; exact absurd h (by simp)
    · rw [if_neg hraw] at h
      rcases hjd : jd raw with _ | u
      · rw [hjd] at h
        rcases hyd : yd raw with _ | u'
        · rw [hyd] at h; exact absurd h (by simp)
        · rw [hyd] at h
          right
          injection h with h2
          rw [h2]
      · rw [hjd] at h
        left
        injection h with h2
        rw [h2]

/-- C3 witness: the theorem applied at concrete decoders that accept
exactly `"J"` (JSON) and `"Y"` (YAML). -/
theorem parseTemplate_spec_witness :
    parseTemplate (fun r => if r = "J" then some [("a", .num 1)] else none)
        (fun r => if r = "Y" then some [("b", .num 2)] else none) ""
      = .error .emptyTemplate
    ∧ parseTemplate (fun r => if r = "J" then some [("a", .num 1)] else none)
        (fun r => if r = "Y" then some [("b", .num 2)] else none) "J"
      = .ok [("a", .num 1)]
    ∧ parseTemplate (fun r => if r = "J" then some [("a", .num 1)] else none)
        (fun r => if r = "Y" then some [("b", .num 2)] else none) "Y"
      = .ok [("b", .num 2)]
    ∧ parseTemplate (fun r => if r = "J" then some [("a", .num 1)] else none)
        (fun r => if r = "Y" then some [("b", .num 2)] else none) "X"
      = .error .unparsableTemplate := by
  refine ⟨parseTemplate_spec.1 _ _, ?_, ?_, ?_⟩
  · exact ((parseTemplate_spec.2.1 _ _
      (fun _ => none) "J" [("a", .num 1)] (by decide) (by simp)).1)
  · exact parseTemplate_spec.2.2.1 _ _ "Y" [("b", .num 2)]
      (by decide) (by simp) (by simp)
  · exact parseTemplate_spec.2.2.2.1 _ _ "X" (by decide) (by simp) (by simp)

/-! ## Per-stack failure isolation in the orchestrator (C2) -/

/-- C2: the `runSearch` loop processes each listed stack independently —
it distributes over list concatenation, a stack whose per-stack search
errors (fetch failure, empty body, parse failure) contributes nothing, a
non-failing stack contributes exactly one Stack Match iff its match list
is non-empty, and a `nil` stack name contributes nothing.  Together these
determine the whole loop: the result holds exactly one Stack Match per
non-failing stack with at least one Resource Match, in input stack order,
and a failure in one stack never changes any other stack's contribution
and never aborts the loop (the loop is a total function into a plain
list, not an error). -/
theorem search_failure_isolation (gt : String → Option String)
    (jsonDecode yamlDecode : Decoder) (rt : String)
    (fl : List (String × String)) :
    (∀ l₁ l₂ : List (Option String),
        runSearchLoop gt jsonDecode yamlDecode rt fl (l₁ ++ l₂)
          = runSearchLoop gt jsonDecode yamlDecode rt fl l₁
            ++ runSearchLoop gt jsonDecode yamlDecode rt fl l₂)
    ∧ (∀ (name : String) (e : StackSearchError),
        searchStackTemplateCmd gt jsonDecode yamlDecode name rt fl = .error e →
        runSearchLoop gt jsonDecode yamlDecode rt fl [some name] = [])
    ∧ (∀ (name : String) (ms : List ResourceMatch),
        searchStackTemplateCmd gt jsonDecode yamlDecode name rt fl = .ok ms →
        ms ≠ [] →
        runSearchLoop gt jsonDecode yamlDecode rt fl [some name]
          = [⟨name, ms⟩])
    ∧ (∀ name : String,
        searchStackTemplateCmd gt jsonDecode yamlDecode name rt fl = .ok [] →
        runSearchLoop gt jsonDecode yamlDecode rt fl [some name] = [])
    ∧ runSearchLoop gt jsonDecode yamlDecode rt fl [none] = [] := by
  refine ⟨?_, ?_, ?_, ?_, rfl⟩
  · intro l₁ l₂
    simp [runSearchLoop, List.filterMap_append]
  · intro name e h
    simp [runSearchLoop, h]
  · intro name ms h hne
    simp [runSearchLoop, h, hne]
  · intro name h
    simp [runSearchLoop, h]

/-- C2 witness: with a fetcher that only knows stack `ok` and a JSON
decoder for its template, a failing stack contributes nothing, the good
stack contributes its single Stack Match, and the loop splits around
concatenation. -/
theorem search_failure_isolation_witness :
    runSearchLoop (fun n => if n = "ok" then some "T" else none)
        (fun r => if r = "T" then
            some [("Resources", .map [("R1", .map [("Type", .str "X")])])]
          else none)
        (fun _ => none) "X" [] [some "bad"] = []
    ∧ runSearchLoop (fun n => if n = "ok" then some "T" else none)
        (fun r => if r = "T" then
            some [("Resources", .map [("R1", .map [("Type", .str "X")])])]
          else none)
        (fun _ => none) "X" [] [some "ok"] = [⟨"ok", [⟨"R1", "X", []⟩]⟩]
    ∧ runSearchLoop (fun n => if n = "ok" then some "T" else none)
        (fun r => if r = "T" then
            some [("Resources", .map [("R1", .map [("Type", .str "X")])])]
          else none)
        (fun _ => none) "X" [] ([some "ok"] ++ [some "bad", some "ok"])
      = runSearchLoop (fun n => if n = "ok" then some "T" else none)
          (fun r => if r = "T" then
              some [("Resources", .map [("R1", .map [("Type", .str "X")])])]
            else none)
          (fun _ => none) "X" [] [some "ok"]
        ++ runSearchLoop (fun n => if n = "ok" then some "T" else none)
            (fun r => if r = "T" then
                some [("Resources", .map [("R1", .map [("Type", .str "X")])])]
              else none)
            (fun _ => none) "X" [] [some "bad", some "ok"] := by
  refine ⟨?_, ?_, ?_⟩
  · exact (search_failure_isolation _ _ _ "X" []).2.1 "bad" .fetchFailed rfl
  · exact (search_failure_isolation _ _ _ "X" []).2.2.1 "ok" [⟨"R1", "X", []⟩]
      rfl (List.cons_ne_nil _ _)
  · exact (search_failure_isolation _ _ _ "X" []).1 [some "ok"]
      [some "bad", some "ok"]

/-! ## Agreement of the two per-template matchers (C9) -/

/-- With a non-empty type filter and an empty resource-name filter, the
two per-resource loop bodies coincide. -/
theorem matchResource_agree (tf : String) (htf : tf ≠ "")
    (lid : String) (rd : Value) (fl : List (String × String)) :
    matchResourceList lid rd tf "" fl = matchResourceCmd lid rd tf fl := by
  cases rd with
  | map rm =>
    rw [matchResourceList, matchResourceCmd]
    rcases hl : Value.lookupKey rm "Type" with _ | v
    · rfl
    · cases v with
      | str s =>
        by_cases hs : s = tf
        · simp [hs]
        · simp [htf, hs]
      | null => rfl
      | bool b => rfl
      | num n => rfl
      | arr es => rfl
      | map m => rfl
  | null => rfl
  | bool b => rfl
  | str s => rfl
  | num n => rfl
  | arr es => rfl

/-- C9: with a NON-EMPTY resource-type filter, the `search` command's
per-template matcher and the `list` command's per-template matcher
(invoked with an empty resource-name filter) produce the same Resource
Match list — same logical IDs, same resolved types, same
matched-properties maps — both at the resource-loop level and through
the whole fetch-parse-extract pipeline. -/
theorem matchers_agree (tf : String) (htf : tf ≠ "") :
    (∀ (resources : List (String × Value)) (fl : List (String × String)),
        searchResourcesList resources tf "" fl
          = searchResourcesCmd resources tf fl)
    ∧ (∀ (gt : String → Option String) (jsonDecode yamlDecode : Decoder)
          (name : String) (fl : List (String × String)),
        searchStackTemplateList gt jsonDecode yamlDecode name tf "" fl
          = searchStackTemplateCmd gt jsonDecode yamlDecode name tf fl) := by
  have entry : ∀ (resources : List (String × Value))
      (fl : List (String × String)),
      searchResourcesList resources tf "" fl
        = searchResourcesCmd resources tf fl := by
    intro resources fl
    rw [searchResourcesList, searchResourcesCmd]
    exact List.filterMap_congr fun e _ => matchResource_agree tf htf e.1 e.2 fl
  refine ⟨entry, ?_⟩
  intro gt jd yd name fl
  rcases hgt : gt name with _ | body
  · simp [searchStackTemplateList, searchStackTemplateCmd, hgt]
  · rcases hpt : parseTemplate jd yd body with e | template
    · simp [searchStackTemplateList, searchStackTemplateCmd, hgt, hpt]
    · rcases hrk : Value.lookupKey template "Resources" with _ | v
      · simp [searchStackTemplateList, searchStackTemplateCmd, hgt, hpt, hrk]
      · cases v <;>
          simp [searchStackTemplateList, searchStackTemplateCmd,
            hgt, hpt, hrk, entry]

/-- C9 witness: both matchers, filtering for `AWS::S3::Bucket` with no
name filter, return the same single match over a two-resource template. -/
theorem matchers_agree_witness :
    searchResourcesList
        [("B", .map [("Type", .str "AWS::S3::Bucket")]),
         ("Q", .map [("Type", .str "AWS::SQS::Queue")])]
        "AWS::S3::Bucket" "" []
      = searchResourcesCmd
          [("B", .map [("Type", .str "AWS::S3::Bucket")]),
           ("Q", .map [("Type", .str "AWS::SQS::Queue")])]
          "AWS::S3::Bucket" [] :=
  (matchers_agree "AWS::S3::Bucket" (by decide)).1 _ []

/-! ## Fatal property-filter syntax errors (C8) -/

/-- The filter parsing loop dies at the first token without `'='`,
naming it, once every earlier token carries a `'='`. -/
theorem parsePropertyFilters_first_bad :
    ∀ (pre post : List String) (tok : String), splitEq tok.data = none →
      (∀ p ∈ pre, splitEq p.data ≠ none) →
      parsePropertyFilters (pre ++ tok :: post)
        = .error (invalidPropertyMsg tok) := by
  intro pre
  induction pre with
  | nil =>
    intro post tok hbad _
    rw [List.nil_append, parsePropertyFilters, hbad]
  | cons p rest ih =>
    intro post tok hbad hpre
    rw [List.cons_append, parsePropertyFilters]
    rcases hp : splitEq p.data with _ | kv
    · exact absurd hp (hpre p (List.mem_cons_self p rest))
    · rw [ih post tok hbad fun q hq => hpre q (List.mem_cons_of_mem p hq)]

/-- C8 counterexample: in the `list` command a `--property` token without
`'='` is NOT rejected before network activity — `runList` consults the
stack lister first, so when listing fails the command dies with the
listing error, and the invalid-filter message (which differs from it)
only appears once a stack list has been obtained. -/
theorem runList_lists_before_validating :
    runListGo ["noequals"] "AWS::S3::Bucket" "" none (fun _ => none)
        (fun _ => none) (fun _ => none)
      = .error "failed to list stacks"
    ∧ "failed to list stacks" ≠ invalidPropertyMsg "noequals"
    ∧ runListGo ["noequals"] "AWS::S3::Bucket" "" (some [some "s"])
        (fun _ => none) (fun _ => none) (fun _ => none)
      = .error (invalidPropertyMsg "noequals") :=
  ⟨rfl, by decide, rfl⟩

/-- C8 (amended): a `--property` token without `'='` is fatal with a
message identifying the token and no search work is performed; in the
`search` command this happens before any network activity (the outcome is
the same for every stack lister and template fetcher), while in the
`list` command it happens only after the stack listing (the outcome is
the same for every template fetcher, for any successfully listed stack
set). -/
theorem invalid_property_fatal (pre post : List String) (tok : String)
    (hbad : splitEq tok.data = none)
    (hpre : ∀ p ∈ pre, splitEq p.data ≠ none) :
    (∀ (listStacksResult : Option (List (Option String)))
        (gt : String → Option String) (jsonDecode yamlDecode : Decoder)
        (rt : String),
      runSearchGo (pre ++ tok :: post) listStacksResult gt
          jsonDecode yamlDecode rt
        = .error (invalidPropertyMsg tok))
    ∧ (∀ (stackList : List (Option String)) (gt : String → Option String)
        (jsonDecode yamlDecode : Decoder) (rt rn : String),
      runListGo (pre ++ tok :: post) rt rn (some stackList) gt
          jsonDecode yamlDecode
        = .error (invalidPropertyMsg tok)) := by
  have h := parsePropertyFilters_first_bad pre post tok hbad hpre
  constructor
  · intro lo gt jd yd rt
    rw [runSearchGo, h]
  · intro sl gt jd yd rt rn
    rw [runListGo, h]

/-- C8 amended-claim witness: with tokens `a=b`, `noeq`, `c=d`, both
commands die with the message naming `noeq`, for arbitrary concrete
oracles. -/
theorem invalid_property_fatal_witness :
    runSearchGo ["a=b", "noeq", "c=d"] (some [some "s"]) (fun _ => none)
        (fun _ => none) (fun _ => none) "T"
      = .error (invalidPropertyMsg "noeq")
    ∧ runListGo ["a=b", "noeq", "c=d"] "T" "" (some [some "s"])
        (fun _ => none) (fun _ => none) (fun _ => none)
      = .error (invalidPropertyMsg "noeq") := by
  have h := invalid_property_fatal ["a=b"] ["c=d"] "noeq" rfl
    (by intro p hp; rw [List.mem_singleton] at hp; rw [hp]; decide)
  exact ⟨h.1 (some [some "s"]) (fun _ => none) (fun _ => none)
      (fun _ => none) "T",
    h.2 [some "s"] (fun _ => none) (fun _ => none) (fun _ => none) "T" ""⟩

end CfnList
